import Mathlib

/-
Verification of the collaboration-network construction routine
(`plot_collaboration_network` in the CORDIS analysis notebook).

The embedding models pandas dataframes as lists of records, cell values as
an inductive `Cell` (missing / numeric / string), and the raising
`astype(float)` coercion via the `Except` monad.  Numeric string parsing
is modelled by a decimal-digit parser (the concrete claims only distinguish
parseable from unparseable values).  Pandas `astype(str)` maps a missing
value to the literal string "nan", and `Series.isin` is list membership.
`Series.str.contains` treats its argument as a regular expression; this
embedding models it for patterns free of regex metacharacters (see
`plainPat`), on which regex search coincides with literal substring
containment and never raises — the theorems about the disciplines/year
filters carry that hypothesis, while Python's `in` (field filter, funding
scheme) is literal containment outright.  `groupby` sorts
group keys ascending and preserves row order within each group,
`drop_duplicates` keeps the first occurrence, and `DataFrame.head(n)`
takes the first n rows (for negative n it drops the last |n| rows).
`networkx.Graph.add_edge` adds an undirected edge, overwriting the stored
edge data when the edge (in either orientation) is already present.
-/

namespace CordisNet

/-- A dataframe cell: missing (NaN), numeric, or string. -/
inductive Cell where
  | missing
  | numV (q : ℚ)
  | strV (s : String)
deriving DecidableEq

/-- A row of the organization table, with the columns the routine reads. -/
structure OrgRow where
  projectID : ℕ
  name : String
  activityType : Cell
  country : Cell
  discipline : Cell
  startDate : Cell
  contribution : Cell
deriving DecidableEq

/-- A row of the project table, with the columns the routine reads. -/
structure ProjRow where
  projectID : ℕ
  sci_voc_titles : Cell
  fundingScheme : Cell
deriving DecidableEq

/-- The pair of tables the routine operates on. -/
structure Tables where
  proj : List ProjRow
  org : List OrgRow
deriving DecidableEq

/-- Does the needle list occur at the head of the hay list. -/
def headMatch : List Char → List Char → Bool
  | [], _ => true
  | _ :: _, [] => false
  | a :: as, b :: bs => a == b && headMatch as bs

/-- Does the needle list occur somewhere inside the hay list. -/
def hasSub (needle : List Char) : List Char → Bool
  | [] => headMatch needle []
  | c :: cs => headMatch needle (c :: cs) || hasSub needle cs

/-- Literal substring test: Python `needle in hay` exactly; also the model
of the `Series.str.contains` checks of the routine, faithful for patterns
free of regex metacharacters (see `plainPat`), on which regex search is
literal substring containment. -/
def strContains (hay needle : String) : Bool :=
  hasSub needle.toList hay.toList

/-- Is the character a regular-expression metacharacter (one of
. ^ $ * + ? [ ] ( ) | or brace or backslash, the latter three compared by
character code). -/
def regexMeta (c : Char) : Bool :=
  c == '.' || c == '^' || c == '$' || c == '*' || c == '+' || c == '?' ||
  c == '[' || c == ']' || c == '(' || c == ')' || c == '|' ||
  c.toNat == 123 || c.toNat == 125 || c.toNat == 92

/-- Does the string avoid every regex metacharacter.  On such patterns
`re.search` (what `Series.str.contains` runs) is exactly literal substring
containment and cannot raise, so `strContains` models it faithfully. -/
def plainPat (s : String) : Bool :=
  s.toList.all (fun c => !regexMeta c)

/-- Pandas `astype(str)` on a single cell: a missing value becomes the
literal string "nan". -/
def astypeStr : Cell → String
  | .missing => "nan"
  | .strV s => s
  | .numV q => toString q

/-- Digit character to its value. -/
def digToNat (c : Char) : Option ℕ :=
  if 48 ≤ c.toNat ∧ c.toNat ≤ 57 then some (c.toNat - 48) else none

/-- Accumulating decimal parser over a character list. -/
def parseNatAux : List Char → ℕ → Option ℕ
  | [], acc => some acc
  | c :: cs, acc =>
    match digToNat c with
    | none => none
    | some d => parseNatAux cs (acc * 10 + d)

/-- Model of Python numeric-string parsing (`float(s)`): a nonempty string
of decimal digits parses, anything else fails.  The claims only
distinguish parseable from unparseable strings. -/
def parseNum (s : String) : Option ℚ :=
  match s.toList with
  | [] => none
  | c :: cs => (parseNatAux (c :: cs) 0).map (fun n => (n : ℚ))

/-- Pandas `astype(float)` on a single cell: missing stays NaN (`none`),
numeric passes through, and a string is parsed, raising on failure. -/
def astypeFloat : Cell → Except String (Option ℚ)
  | .missing => .ok none
  | .numV q => .ok (some q)
  | .strV s =>
    match parseNum s with
    | some q => .ok (some q)
    | none => .error "could not convert string to float"

/-- Total view of the float coercion for cells on which it cannot raise
(NaN for missing and for unparseable strings). -/
def parseTot : Cell → Option ℚ
  | .missing => none
  | .numV q => some q
  | .strV s => parseNum s

/-- `x >= c` on a possibly-NaN float: NaN compares false. -/
def floatGe (v : Option ℚ) (c : ℚ) : Bool :=
  match v with
  | none => false
  | some q => decide (c ≤ q)

/-- Does the float coercion succeed on this cell. -/
def wfCell (c : Cell) : Bool :=
  match astypeFloat c with
  | .ok _ => true
  | .error _ => false

/-- Every contribution cell of the organization rows can be coerced
without raising. -/
def wfOrg (o : List OrgRow) : Bool :=
  o.all (fun r => wfCell r.contribution)

/-- Keep-first deduplication, accumulating the values already seen:
pandas `drop_duplicates` / `unique`. -/
def dropDupAux [DecidableEq α] (seen : List α) : List α → List α
  | [] => []
  | x :: xs => if x ∈ seen then dropDupAux seen xs else x :: dropDupAux (x :: seen) xs

/-- Keep-first deduplication of a list. -/
def dropDup [DecidableEq α] (l : List α) : List α :=
  dropDupAux [] l

/-- Insert into a sorted list of naturals. -/
def insertSorted (x : ℕ) : List ℕ → List ℕ
  | [] => [x]
  | y :: ys => if x ≤ y then x :: y :: ys else y :: insertSorted x ys

/-- Sort a list of naturals ascending (groupby sorts group keys). -/
def sortNat (l : List ℕ) : List ℕ :=
  l.foldr insertSorted []

/-- `df['projectID'].unique()` of a project table. -/
def idsOf (P : List ProjRow) : List ℕ :=
  dropDup (P.map (fun r => r.projectID))

/-- `itertools.combinations(l, 2)` as a list of ordered tuples. -/
def combos2 : List α → List (α × α)
  | [] => []
  | x :: xs => xs.map (fun y => (x, y)) ++ combos2 xs

/-- `DataFrame.head(n)`: first n rows, or all but the last |n| rows when n
is negative. -/
def pdHead (n : ℤ) (l : List α) : List α :=
  if 0 ≤ n then l.take n.toNat else l.take (l.length - (-n).toNat)

/-- Increment the count of a key in an association list, appending a fresh
entry when absent (one step of `collections.Counter`). -/
def bumpKey [DecidableEq α] (k : α) : List (α × ℕ) → List (α × ℕ)
  | [] => [(k, 1)]
  | (a, n) :: rest => if a = k then (a, n + 1) :: rest else (a, n) :: bumpKey k rest

/-- `collections.Counter` over a list, insertion-ordered like a Python
dict. -/
def counter [DecidableEq α] (l : List α) : List (α × ℕ) :=
  l.foldl (fun acc k => bumpKey k acc) []

/-- Are two oriented pairs the same undirected edge. -/
def sameEdge (e f : String × String) : Bool :=
  (e.1 == f.1 && e.2 == f.2) || (e.1 == f.2 && e.2 == f.1)

/-- `networkx.Graph.add_edge` with endpoints u, v and weight w: if the undirected edge is
already present (in either orientation) its weight is overwritten,
otherwise the edge is appended with the given orientation. -/
def addEdge (es : List ((String × String) × ℕ)) (k : String × String) (w : ℕ) :
    List ((String × String) × ℕ) :=
  match es with
  | [] => [(k, w)]
  | (a, w0) :: rest =>
    if sameEdge a k then (a, w) :: rest else (a, w0) :: addEdge rest k w

/-- Insert every counted edge into an (initially empty) undirected graph. -/
def buildGraph (ec : List ((String × String) × ℕ)) : List ((String × String) × ℕ) :=
  ec.foldl (fun g p => addEdge g p.1 p.2) []

/-- The node set of the built graph: endpoints of its edges, deduplicated. -/
def graphNodes (es : List ((String × String) × ℕ)) : List String :=
  dropDup (es.foldl (fun acc e => acc ++ [e.1.1, e.1.2]) [])

/-- Traverse a list with a fallible function, propagating the first
error (pandas `astype` on a column raises on the first bad value). -/
def mapExc (f : α → Except ε β) : List α → Except ε (List β)
  | [] => .ok []
  | x :: xs =>
    match f x with
    | .error e => .error e
    | .ok y =>
      match mapExc f xs with
      | .error e => .error e
      | .ok ys => .ok (y :: ys)

/-- `df_org[df_org['contribution'].astype(float) >= contribution]`: coerce
the whole column (raising on any malformed value), then keep the rows
whose value compares `>=` the threshold (NaN compares false). -/
def contribStep (th : ℚ) (o : List OrgRow) : Except String (List OrgRow) :=
  match mapExc (fun r => astypeFloat r.contribution) o with
  | .error e => .error e
  | .ok vals => .ok (((o.zip vals).filter (fun rv => floatGe rv.2 th)).map (fun rv => rv.1))

/-- Predicate of the scientific-field filter on a project row:
`field_filter in field if isinstance(field, str) else False`. -/
def fieldPred (ff : String) (r : ProjRow) : Bool :=
  match r.sci_voc_titles with
  | .strV v => strContains v ff
  | _ => false

/-- Predicate of one funding-scheme value on a project row:
`call in funding_scheme if isinstance(funding_scheme, str) else False`. -/
def schemePred (call : String) (r : ProjRow) : Bool :=
  match r.fundingScheme with
  | .strV v => strContains v call
  | _ => false

/-- One iteration of the `project_type` loop: narrow the project table by
one funding-scheme value and restrict the organization table to the
surviving project ids. -/
def ptStepOne (call : String) (t : Tables) : Tables :=
  ⟨t.proj.filter (schemePred call),
   t.org.filter (fun r => decide (r.projectID ∈ idsOf (t.proj.filter (schemePred call))))⟩

/-- One filter criterion of the routine, with its argument. -/
inductive Crit where
  | field (s : String)
  | orgT (l : List String)
  | ctry (l : List String)
  | disc (l : List String)
  | yr (s : String)
  | contrib (q : ℚ)
  | ptype (l : List String)
deriving DecidableEq

/-- Apply one specified filter criterion to the table pair, as the
corresponding block of `plot_collaboration_network` does.  The
disciplines and year cases model `Series.str.contains` by `strContains`,
which is exact for regex-metacharacter-free patterns; theorems whose
truth depends on those two cases are stated under a `plainPat`
hypothesis (a metacharacter pattern can match differently or raise
`re.error` in the source). -/
def applyCrit : Crit → Tables → Except String Tables
  | .field s, t =>
    .ok ⟨t.proj.filter (fieldPred s),
         t.org.filter (fun r => decide (r.projectID ∈ idsOf (t.proj.filter (fieldPred s))))⟩
  | .orgT l, t =>
    .ok ⟨t.proj, t.org.filter (fun r => decide (astypeStr r.activityType ∈ l))⟩
  | .ctry l, t =>
    .ok ⟨t.proj, t.org.filter (fun r => decide (astypeStr r.country ∈ l))⟩
  | .disc l, t =>
    .ok ⟨t.proj,
         l.foldl (fun o d => o.filter (fun r => strContains (astypeStr r.discipline) d)) t.org⟩
  | .yr s, t =>
    .ok ⟨t.proj, t.org.filter (fun r => strContains (astypeStr r.startDate) s)⟩
  | .contrib q, t =>
    match contribStep q t.org with
    | .error e => .error e
    | .ok o => .ok ⟨t.proj, o⟩
  | .ptype l, t =>
    .ok (l.foldl (fun t c => ptStepOne c t) t)

/-- Apply one criterion, then a second one (on the first one's result). -/
def seqCrit (c1 c2 : Crit) (t : Tables) : Except String Tables :=
  match applyCrit c1 t with
  | .error e => .error e
  | .ok t1 => applyCrit c2 t1

/-- The keyword arguments of `plot_collaboration_network`, in signature
order: field_filter, org_types, max_projects, min_participants,
countries, disciplines, year, contribution, project_type. -/
structure Config where
  fieldFilter : Option String
  orgTypes : Option (List String)
  maxProjects : ℤ
  minParticipants : ℤ
  countries : Option (List String)
  disciplines : Option (List String)
  year : Option String
  contribution : Option ℚ
  projectType : Option (List String)
deriving DecidableEq

/-- Python truthiness of an optional string argument. -/
def truthyS : Option String → Bool
  | none => false
  | some s => !(s == "")

/-- Python truthiness of an optional list argument. -/
def truthyL : Option (List String) → Bool
  | none => false
  | some l => !l.isEmpty

/-- Python truthiness of an optional numeric argument. -/
def truthyQ : Option ℚ → Bool
  | none => false
  | some q => !(decide (q = 0))

/-- The effective `org_types` list: `None` is replaced by the default five
activity-type codes before the truthiness test. -/
def effOrgTypes : Option (List String) → List String
  | none => ["HES", "REC", "PUB", "PRC", "SME"]
  | some l => l

/-- Run a criterion when its `if` guard is truthy, otherwise leave the
tables unchanged. -/
def gateStep (b : Bool) (c : Crit) (t : Tables) : Except String Tables :=
  if b then applyCrit c t else .ok t

/-- Error propagation: run the continuation on a table pair, propagate a
raised coercion error. -/
def excThen (x : Except String Tables) (f : Tables → Except String Tables) :
    Except String Tables :=
  match x with
  | .error e => .error e
  | .ok t => f t

/-- The whole filter sequence of `plot_collaboration_network`, in source
order: field filter, organization types, countries, disciplines, year,
contribution, project type. -/
def applyAllFilters (cfg : Config) (t : Tables) : Except String Tables :=
  excThen (gateStep (truthyS cfg.fieldFilter) (.field (cfg.fieldFilter.getD "")) t) (fun t1 =>
  excThen (gateStep (!(effOrgTypes cfg.orgTypes).isEmpty)
      (.orgT (effOrgTypes cfg.orgTypes)) t1) (fun t2 =>
  excThen (gateStep (truthyL cfg.countries) (.ctry (cfg.countries.getD [])) t2) (fun t3 =>
  excThen (gateStep (truthyL cfg.disciplines) (.disc (cfg.disciplines.getD [])) t3) (fun t4 =>
  excThen (gateStep (truthyS cfg.year) (.yr (cfg.year.getD "")) t4) (fun t5 =>
  excThen (gateStep (truthyQ cfg.contribution) (.contrib (cfg.contribution.getD 0)) t5)
    (fun t6 =>
  gateStep (truthyL cfg.projectType) (.ptype (cfg.projectType.getD [])) t6))))))

/-- `df_org[['projectID','name']].drop_duplicates()`: project the filtered
organization table onto (projectID, name) pairs and deduplicate,
keeping first occurrences. -/
def dedupPairs (o : List OrgRow) : List (ℕ × String) :=
  dropDup (o.map (fun r => (r.projectID, r.name)))

/-- `groupby('projectID')['name'].apply(list)`: one entry per project id
(keys sorted ascending), carrying the participant names in row order. -/
def collabGroups (pairs : List (ℕ × String)) : List (ℕ × List String) :=
  (sortNat (dropDup (pairs.map (fun p => p.1)))).map
    (fun pid => (pid, (pairs.filter (fun p => decide (p.1 = pid))).map (fun p => p.2)))

/-- Grouping, the `min_participants` participant-count filter, and the
`head(max_projects)` truncation, in source order. -/
def collabStage (cfg : Config) (o : List OrgRow) : List (ℕ × List String) :=
  pdHead cfg.maxProjects
    ((collabGroups (dedupPairs o)).filter
      (fun g => decide ((g.2.length : ℤ) ≥ cfg.minParticipants)))

/-- The edge-instance list: all 2-combinations of every retained project's
participant list, concatenated. -/
def edgeInstances (groups : List (ℕ × List String)) : List (String × String) :=
  groups.foldl (fun acc g => acc ++ combos2 g.2) []

/-- The whole routine up to the rendered graph: filters, deduplication,
grouping, truncation, edge counting, and insertion into the undirected
graph.  The result is the weighted edge list of the graph. -/
def pipelineGraph (cfg : Config) (t : Tables) :
    Except String (List ((String × String) × ℕ)) :=
  match applyAllFilters cfg t with
  | .error e => .error e
  | .ok t1 => .ok (buildGraph (counter (edgeInstances (collabStage cfg t1.org))))

/-- Is the computation a success. -/
def excOk : Except ε α → Bool
  | .ok _ => true
  | .error _ => false

/-- The project-row predicate of a criterion (trivial for the criteria
that only touch the organization table). -/
def projPredOf : Crit → ProjRow → Bool
  | .field s => fieldPred s
  | .ptype l => fun r => l.all (fun c => schemePred c r)
  | _ => fun _ => true

/-- The organization-row gate of a criterion, given the project table at
the time the criterion runs. -/
def orgGateOf (c : Crit) (P : List ProjRow) : OrgRow → Bool :=
  match c with
  | .field s => fun r => decide (r.projectID ∈ idsOf (P.filter (fieldPred s)))
  | .orgT l => fun r => decide (astypeStr r.activityType ∈ l)
  | .ctry l => fun r => decide (astypeStr r.country ∈ l)
  | .disc l => fun r => l.all (fun d => strContains (astypeStr r.discipline) d)
  | .yr s => fun r => strContains (astypeStr r.startDate) s
  | .contrib q => fun r => floatGe (parseTot r.contribution) q
  | .ptype l => fun r =>
      l.isEmpty ||
        decide (r.projectID ∈ idsOf (P.filter (fun r => l.all (fun c => schemePred c r))))

/-- Does the criterion act on the project table (and restrict the
organization table through the surviving project ids). -/
def isProjCrit : Crit → Bool
  | .field _ => true
  | .ptype _ => true
  | _ => false

/-- A project-table criterion whose value list is empty acts as the
identity (the `project_type` loop body never runs). -/
def emptyG : Crit → Bool
  | .ptype l => l.isEmpty
  | _ => false

/-! ### Concrete fixtures used by the counterexamples and witnesses -/

/-- An organization row with the given project id and name, an activity
type inside the default set, and all other cells missing. -/
def hesRow (pid : ℕ) (nm : String) : OrgRow :=
  ⟨pid, nm, .strV "HES", .missing, .missing, .missing, .missing⟩

/-- A project row carrying only its id. -/
def bareProj (pid : ℕ) : ProjRow := ⟨pid, .missing, .missing⟩

/-- The default keyword arguments of the routine. -/
def cfgDefault : Config := ⟨none, none, 1000, 2, none, none, none, none, none⟩

/-- Two projects sharing institutions A and B, listed in opposite row
orders (project 1 lists A before B, project 2 lists B before A). -/
def tSwap : Tables :=
  ⟨[bareProj 1, bareProj 2], [hesRow 1 "A", hesRow 1 "B", hesRow 2 "B", hesRow 2 "A"]⟩

/-- The configuration of the truncation scenario: `max_projects = 1`,
`min_participants = 2`. -/
def cfgTrunc : Config := ⟨none, none, 1, 2, none, none, none, none, none⟩

/-- The truncation scenario tables: project 1 with participants A, B, C
and project 2 with participants A, B. -/
def tTrunc : Tables :=
  ⟨[bareProj 1, bareProj 2],
   [hesRow 1 "A", hesRow 1 "B", hesRow 1 "C", hesRow 2 "A", hesRow 2 "B"]⟩

/-- An organization row whose contribution cell is a string that does not
parse as a number. -/
def rowBadContrib : OrgRow :=
  ⟨1, "I", .strV "HES", .strV "X", .missing, .missing, .strV "abc"⟩

/-- An organization row whose contribution cell is missing. -/
def rowMissContrib : OrgRow := hesRow 1 "M"

/-- An organization row whose contribution cell is numeric and negative. -/
def rowNegContrib : OrgRow :=
  ⟨1, "N", .strV "HES", .missing, .missing, .missing, .numV (-5)⟩

/-- A configuration that only sets the contribution threshold. -/
def cfgContrib : Config := ⟨none, none, 1000, 2, none, none, none, some 5, none⟩

/-- Tables containing the single malformed-contribution row. -/
def tBad : Tables := ⟨[], [rowBadContrib]⟩

/-- A configuration with the out-of-range control parameters of the
validation claim: `min_participants = 0` and `max_projects = 0`. -/
def cfgNoValid : Config := ⟨none, none, 0, 0, none, none, none, none, none⟩

/-- A configuration whose optional filter arguments are all present but
falsy: empty lists, the empty string, and a zero threshold. -/
def allFalsyCfg : Config :=
  ⟨none, some [], 1000, 2, some [], some [], some "", some 0, some []⟩

/-- A single organization row whose activity type is outside the default
five-type set. -/
def tOTH : Tables :=
  ⟨[], [⟨1, "I", .strV "OTH", .missing, .missing, .missing, .missing⟩]⟩

/-- Tables whose rows carry a missing, a negative, and a malformed
contribution cell. -/
def tContrib : Tables := ⟨[], [rowMissContrib, rowNegContrib, rowBadContrib]⟩

/-- A configuration that only sets `org_types = []`. -/
def cfgOrgEmpty : Config := ⟨none, some [], 1000, 2, none, none, none, none, none⟩

/-- A configuration with `org_types = []` and `contribution = 0`. -/
def cfgContribZero : Config := ⟨none, some [], 1000, 2, none, none, none, some 0, none⟩

/-- An organization row whose discipline and start date are missing. -/
def rowMissDisc : OrgRow := hesRow 1 "D"

/-- Tables containing only the missing-discipline row. -/
def tMiss : Tables := ⟨[], [rowMissDisc]⟩

/-- A configuration filtering on the discipline value "nan" (and no
activity-type restriction). -/
def cfgDiscNan : Config := ⟨none, some [], 1000, 2, none, some ["nan"], none, none, none⟩

/-- A configuration filtering on the year value "nan" (and no
activity-type restriction). -/
def cfgYearNan : Config := ⟨none, some [], 1000, 2, none, none, some "nan", none, none⟩

/-- A configuration filtering on a country no row has. -/
def cfgNoMatch : Config := ⟨none, none, 1000, 2, some ["ZZ"], none, none, none, none⟩

/-- A single organization row from country BE. -/
def tBE : Tables :=
  ⟨[bareProj 1], [⟨1, "I", .strV "HES", .strV "BE", .missing, .missing, .missing⟩]⟩

/-- Tables whose contribution cells all coerce without raising. -/
def tWf : Tables := ⟨[bareProj 1], [rowMissContrib, rowNegContrib]⟩

instance instDecEqExc [DecidableEq ε] [DecidableEq α] : DecidableEq (Except ε α) := fun a b =>
  match a, b with
  | .error e, .error f =>
    if h : e = f then .isTrue (congrArg Except.error h)
    else .isFalse (fun hh => h (Except.error.inj hh))
  | .ok x, .ok y =>
    if h : x = y then .isTrue (congrArg Except.ok h)
    else .isFalse (fun hh => h (Except.ok.inj hh))
  | .error _, .ok _ => .isFalse (fun hh => Except.noConfusion hh)
  | .ok _, .error _ => .isFalse (fun hh => Except.noConfusion hh)

/-! ### List helper lemmas -/

theorem excThenOk (t : Tables) (f : Tables → Except String Tables) :
    excThen (.ok t) f = f t := rfl

theorem filterTrue (l : List α) : l.filter (fun _ => true) = l := by
  induction l with
  | nil => rfl
  | cons x xs ih => simp [List.filter_cons, ih]

theorem filterCongrAll (p q : α → Bool) (l : List α) (h : ∀ x ∈ l, p x = q x) :
    l.filter p = l.filter q := by
  induction l with
  | nil => rfl
  | cons x xs ih =>
    have hx := h x (by simp)
    have ht := ih (fun y hy => h y (by simp [hy]))
    simp [List.filter_cons, hx, ht]

theorem filterSwap (p q : α → Bool) (l : List α) :
    (l.filter p).filter q = (l.filter q).filter p := by
  induction l with
  | nil => rfl
  | cons x xs ih =>
    by_cases hp : p x = true <;> by_cases hq : q x = true <;>
      simp [List.filter_cons, hp, hq, ih]

theorem filterCollapse (p q : α → Bool) (l : List α)
    (h : ∀ x ∈ l, q x = true → p x = true) :
    (l.filter p).filter q = l.filter q := by
  induction l with
  | nil => rfl
  | cons x xs ih =>
    have ht := ih (fun y hy => h y (by simp [hy]))
    by_cases hq : q x = true
    · have hp := h x (by simp) hq
      simp [List.filter_cons, hp, hq, ht]
    · by_cases hp : p x = true <;> simp [List.filter_cons, hp, hq, ht]

theorem memDropDupAux [DecidableEq α] (l : List α) :
    ∀ (seen : List α) (a : α), a ∈ dropDupAux seen l ↔ a ∈ l ∧ a ∉ seen := by
  induction l with
  | nil => intro seen a; simp [dropDupAux]
  | cons x xs ih =>
    intro seen a
    by_cases hx : x ∈ seen
    · simp only [dropDupAux, if_pos hx, ih]
      constructor
      · exact fun ⟨h1, h2⟩ => ⟨by simp [h1], h2⟩
      · rintro ⟨h1, h2⟩
        rcases List.mem_cons.mp h1 with rfl | h1
        · exact absurd hx h2
        · exact ⟨h1, h2⟩
    · simp only [dropDupAux, if_neg hx, List.mem_cons, ih]
      constructor
      · rintro (rfl | ⟨h1, h2⟩)
        · exact ⟨Or.inl rfl, hx⟩
        · exact ⟨Or.inr h1, fun hs => h2 (by simp [hs])⟩
      · rintro ⟨rfl | h1, h2⟩
        · exact Or.inl rfl
        · by_cases hax : a = x
          · exact Or.inl hax
          · exact Or.inr ⟨h1, by simp [hax, h2]⟩

theorem memDropDup [DecidableEq α] (l : List α) (a : α) :
    a ∈ dropDup l ↔ a ∈ l := by
  simp [dropDup, memDropDupAux]

theorem nodupDropDupAux [DecidableEq α] (l : List α) :
    ∀ seen : List α, (dropDupAux seen l).Nodup := by
  induction l with
  | nil => intro seen; simp [dropDupAux]
  | cons x xs ih =>
    intro seen
    by_cases hx : x ∈ seen
    · simpa [dropDupAux, if_pos hx] using ih seen
    · simp only [dropDupAux, if_neg hx]
      refine List.nodup_cons.mpr ⟨?_, ih (x :: seen)⟩
      intro hmem
      exact ((memDropDupAux xs (x :: seen) x).mp hmem).2 (by simp)

theorem nodupDropDup [DecidableEq α] (l : List α) : (dropDup l).Nodup :=
  nodupDropDupAux l []

theorem idsOfFilterSub (P : List ProjRow) (p : ProjRow → Bool) (a : ℕ)
    (h : a ∈ idsOf (P.filter p)) : a ∈ idsOf P := by
  simp only [idsOf, memDropDup, List.mem_map] at h ⊢
  rcases h with ⟨r, hr, rfl⟩
  exact ⟨r, (List.mem_filter.mp hr).1, rfl⟩

/-! ### Normal form of one filter criterion

Each criterion narrows the project table by a row predicate and the
organization table by a row gate that depends only on the project table as
it stood when the criterion ran; the contribution criterion can instead
raise, but reduces to a pure row filter when every contribution cell
coerces. -/

theorem astypeParseTot (c : Cell) (h : wfCell c = true) :
    astypeFloat c = .ok (parseTot c) := by
  cases c with
  | missing => rfl
  | numV q => rfl
  | strV s =>
    cases hp : parseNum s with
    | none => simp [wfCell, astypeFloat, hp] at h
    | some q => simp [astypeFloat, parseTot, hp]

theorem mapExcWf (o : List OrgRow) (h : wfOrg o = true) :
    mapExc (fun r => astypeFloat r.contribution) o
      = .ok (o.map (fun r => parseTot r.contribution)) := by
  induction o with
  | nil => rfl
  | cons r rs ih =>
    rw [wfOrg, List.all_cons, Bool.and_eq_true] at h
    have h1 : astypeFloat r.contribution = .ok (parseTot r.contribution) :=
      astypeParseTot _ h.1
    have h2 := ih h.2
    simp [mapExc, h1, h2]

theorem zipFilterMap (g : OrgRow → Option ℚ) (th : ℚ) (o : List OrgRow) :
    ((o.zip (o.map g)).filter (fun rv => floatGe rv.2 th)).map (fun rv => rv.1)
      = o.filter (fun r => floatGe (g r) th) := by
  induction o with
  | nil => rfl
  | cons r rs ih =>
    by_cases hg : floatGe (g r) th = true <;>
      simp [List.filter_cons, hg, ih]

theorem contribStepWf (th : ℚ) (o : List OrgRow) (h : wfOrg o = true) :
    contribStep th o = .ok (o.filter (fun r => floatGe (parseTot r.contribution) th)) := by
  unfold contribStep
  rw [mapExcWf o h]
  simp [zipFilterMap]

theorem discFold (l : List String) (o : List OrgRow) :
    l.foldl (fun o d => o.filter (fun r => strContains (astypeStr r.discipline) d)) o
      = o.filter (fun r => l.all (fun d => strContains (astypeStr r.discipline) d)) := by
  induction l generalizing o with
  | nil => simp [filterTrue]
  | cons d ds ih =>
    rw [List.foldl_cons, ih, List.filter_filter]
    exact filterCongrAll _ _ _ (fun x _ => by simp [List.all_cons, Bool.and_comm])

theorem ptypeFoldEq (l : List String) (t : Tables) :
    l.foldl (fun t c => ptStepOne c t) t
      = ⟨t.proj.filter (fun r => l.all (fun c => schemePred c r)),
         t.org.filter (fun r =>
           l.isEmpty ||
             decide (r.projectID ∈
               idsOf (t.proj.filter (fun r => l.all (fun c => schemePred c r)))))⟩ := by
  induction l generalizing t with
  | nil => simp [filterTrue]
  | cons c cs ih =>
    rw [List.foldl_cons]
    have hstep : ptStepOne c t
        = ⟨t.proj.filter (schemePred c),
           t.org.filter (fun r =>
             decide (r.projectID ∈ idsOf (t.proj.filter (schemePred c))))⟩ := rfl
    rw [hstep, ih]
    have hproj : (t.proj.filter (schemePred c)).filter (fun r => cs.all (fun c => schemePred c r))
        = t.proj.filter (fun r => (c :: cs).all (fun c => schemePred c r)) := by
      rw [List.filter_filter]
      exact filterCongrAll _ _ _ (fun x _ => by simp [List.all_cons, Bool.and_comm])
    cases cs with
    | nil =>
      rw [hproj]
      simp only [List.isEmpty_nil, List.isEmpty_cons, Bool.true_or, Bool.false_or,
        filterTrue]
      have hgate : t.proj.filter (fun r => [c].all (fun c => schemePred c r))
          = t.proj.filter (schemePred c) :=
        filterCongrAll _ _ _ (fun x _ => by simp [List.all_cons])
      rw [hgate]
    | cons c2 cs2 =>
      simp only [List.isEmpty_cons, Bool.false_or]
      have hcol : (t.org.filter (fun r =>
            decide (r.projectID ∈ idsOf (t.proj.filter (schemePred c))))).filter
            (fun r => decide (r.projectID ∈
              idsOf ((t.proj.filter (schemePred c)).filter
                (fun r => (c2 :: cs2).all (fun c => schemePred c r)))))
          = t.org.filter (fun r => decide (r.projectID ∈
              idsOf ((t.proj.filter (schemePred c)).filter
                (fun r => (c2 :: cs2).all (fun c => schemePred c r))))) := by
        refine filterCollapse _ _ _ (fun x _ hq => ?_)
        exact decide_eq_true (idsOfFilterSub _ _ _ (of_decide_eq_true hq))
      rw [hcol, hproj]

theorem wfFilter (o : List OrgRow) (p : OrgRow → Bool) (h : wfOrg o = true) :
    wfOrg (o.filter p) = true := by
  rw [wfOrg, List.all_eq_true] at h ⊢
  exact fun r hr => h r (List.mem_filter.mp hr).1

theorem applyCritNorm (c : Crit) (t : Tables) (h : wfOrg t.org = true) :
    applyCrit c t
      = .ok ⟨t.proj.filter (projPredOf c), t.org.filter (orgGateOf c t.proj)⟩ := by
  cases c with
  | field s => rfl
  | orgT l => simp [applyCrit, projPredOf, orgGateOf, filterTrue]
  | ctry l => simp [applyCrit, projPredOf, orgGateOf, filterTrue]
  | yr s => simp [applyCrit, projPredOf, orgGateOf, filterTrue]
  | disc l => simp [applyCrit, projPredOf, orgGateOf, filterTrue, discFold]
  | contrib q =>
    simp only [applyCrit, contribStepWf q t.org h, projPredOf, orgGateOf, filterTrue]
  | ptype l => simp only [applyCrit, ptypeFoldEq, projPredOf, orgGateOf]

/-- The normal form, stated on an explicit table-pair constructor. -/
theorem applyCritNormMk (c : Crit) (P : List ProjRow) (O : List OrgRow)
    (h : wfOrg O = true) :
    applyCrit c ⟨P, O⟩ = .ok ⟨P.filter (projPredOf c), O.filter (orgGateOf c P)⟩ :=
  applyCritNorm c ⟨P, O⟩ h

theorem projPredTriv (c : Crit) (hc : isProjCrit c = false) (r : ProjRow) :
    projPredOf c r = true := by
  cases c <;> first | rfl | simp [isProjCrit] at hc

theorem orgGateIndep (c : Crit) (hc : isProjCrit c = false) (P Q : List ProjRow) :
    orgGateOf c P = orgGateOf c Q := by
  cases c <;> first | rfl | simp [isProjCrit] at hc

theorem orgGateProj (c : Crit) (hc : isProjCrit c = true) (P : List ProjRow) (r : OrgRow) :
    orgGateOf c P r
      = (emptyG c || decide (r.projectID ∈ idsOf (P.filter (projPredOf c)))) := by
  cases c with
  | field s => simp [orgGateOf, emptyG, projPredOf]
  | ptype l => rfl
  | orgT l => simp [isProjCrit] at hc
  | ctry l => simp [isProjCrit] at hc
  | disc l => simp [isProjCrit] at hc
  | yr s => simp [isProjCrit] at hc
  | contrib q => simp [isProjCrit] at hc

theorem projPredEmptyG (c : Crit) (hc : emptyG c = true) (r : ProjRow) :
    projPredOf c r = true := by
  cases c <;> simp [emptyG] at hc
  case ptype l =>
    subst hc
    rfl

theorem orgGateEmptyG (c : Crit) (hc : emptyG c = true) (P : List ProjRow) (r : OrgRow) :
    orgGateOf c P r = true := by
  cases c <;> simp [emptyG] at hc
  case ptype l => simp [orgGateOf, hc]

/-- Trivial filters vanish. -/
theorem filterOfTriv (l : List α) (p : α → Bool) (h : ∀ x ∈ l, p x = true) :
    l.filter p = l := by
  rw [filterCongrAll p (fun _ => true) l (fun x hx => by simp [h x hx]), filterTrue]

/-- The organization-table effect of two criteria commutes, each gate
evaluated at the project table as narrowed by the other criterion. -/
theorem gateSwap (c1 c2 : Crit) (P : List ProjRow) (O : List OrgRow) :
    (O.filter (orgGateOf c1 P)).filter (orgGateOf c2 (P.filter (projPredOf c1)))
      = (O.filter (orgGateOf c2 P)).filter (orgGateOf c1 (P.filter (projPredOf c2))) := by
  cases hc1 : isProjCrit c1 with
  | false =>
    cases hc2 : isProjCrit c2 with
    | false =>
      rw [orgGateIndep c2 hc2 (P.filter (projPredOf c1)) P,
        orgGateIndep c1 hc1 (P.filter (projPredOf c2)) P]
      exact filterSwap _ _ _
    | true =>
      rw [filterOfTriv P (projPredOf c1) (fun x _ => projPredTriv c1 hc1 x),
        orgGateIndep c1 hc1 (P.filter (projPredOf c2)) P]
      exact filterSwap _ _ _
  | true =>
    cases hc2 : isProjCrit c2 with
    | false =>
      rw [filterOfTriv P (projPredOf c2) (fun x _ => projPredTriv c2 hc2 x),
        orgGateIndep c2 hc2 (P.filter (projPredOf c1)) P]
      exact filterSwap _ _ _
    | true =>
      cases he1 : emptyG c1 with
      | true =>
        rw [filterOfTriv O (orgGateOf c1 P) (fun x _ => orgGateEmptyG c1 he1 P x),
          filterOfTriv P (projPredOf c1) (fun x _ => projPredEmptyG c1 he1 x),
          filterOfTriv _ (orgGateOf c1 (P.filter (projPredOf c2)))
            (fun x _ => orgGateEmptyG c1 he1 _ x)]
      | false =>
        cases he2 : emptyG c2 with
        | true =>
          rw [filterOfTriv O (orgGateOf c2 P) (fun x _ => orgGateEmptyG c2 he2 P x),
            filterOfTriv P (projPredOf c2) (fun x _ => projPredEmptyG c2 he2 x),
            filterOfTriv _ (orgGateOf c2 (P.filter (projPredOf c1)))
              (fun x _ => orgGateEmptyG c2 he2 _ x)]
        | false =>
          have g1 : O.filter (orgGateOf c1 P)
              = O.filter (fun r =>
                  decide (r.projectID ∈ idsOf (P.filter (projPredOf c1)))) :=
            filterCongrAll _ _ _ (fun x _ => by
              rw [orgGateProj c1 hc1, he1, Bool.false_or])
          have g2 : O.filter (orgGateOf c2 P)
              = O.filter (fun r =>
                  decide (r.projectID ∈ idsOf (P.filter (projPredOf c2)))) :=
            filterCongrAll _ _ _ (fun x _ => by
              rw [orgGateProj c2 hc2, he2, Bool.false_or])
          have g12 : ∀ O' : List OrgRow, O'.filter (orgGateOf c2 (P.filter (projPredOf c1)))
              = O'.filter (fun r => decide (r.projectID ∈
                  idsOf ((P.filter (projPredOf c1)).filter (projPredOf c2)))) := fun O' =>
            filterCongrAll _ _ _ (fun x _ => by
              rw [orgGateProj c2 hc2, he2, Bool.false_or])
          have g21 : ∀ O' : List OrgRow, O'.filter (orgGateOf c1 (P.filter (projPredOf c2)))
              = O'.filter (fun r => decide (r.projectID ∈
                  idsOf ((P.filter (projPredOf c2)).filter (projPredOf c1)))) := fun O' =>
            filterCongrAll _ _ _ (fun x _ => by
              rw [orgGateProj c1 hc1, he1, Bool.false_or])
          rw [g1, g2, g12, g21]
          have col1 : ((O.filter (fun r =>
                decide (r.projectID ∈ idsOf (P.filter (projPredOf c1))))).filter
                (fun r => decide (r.projectID ∈
                  idsOf ((P.filter (projPredOf c1)).filter (projPredOf c2)))))
              = O.filter (fun r => decide (r.projectID ∈
                  idsOf ((P.filter (projPredOf c1)).filter (projPredOf c2)))) :=
            filterCollapse _ _ _ (fun x _ hq =>
              decide_eq_true (idsOfFilterSub _ _ _ (of_decide_eq_true hq)))
          have col2 : ((O.filter (fun r =>
                decide (r.projectID ∈ idsOf (P.filter (projPredOf c2))))).filter
                (fun r => decide (r.projectID ∈
                  idsOf ((P.filter (projPredOf c2)).filter (projPredOf c1)))))
              = O.filter (fun r => decide (r.projectID ∈
                  idsOf ((P.filter (projPredOf c2)).filter (projPredOf c1)))) :=
            filterCollapse _ _ _ (fun x _ hq =>
              decide_eq_true (idsOfFilterSub _ _ _ (of_decide_eq_true hq)))
          rw [col1, col2, filterSwap (projPredOf c1) (projPredOf c2) P]

/-- Running one criterion and then a second one, when the first returned
a table pair. -/
theorem seqCritEq (c1 c2 : Crit) (t t1 : Tables) (h : applyCrit c1 t = .ok t1) :
    seqCrit c1 c2 t = applyCrit c2 t1 := by
  unfold seqCrit
  rw [h]

/-! ### Aggregation-side helper lemmas -/

theorem pdHeadSubset (n : ℤ) (l : List α) : pdHead n l ⊆ l := by
  unfold pdHead
  split <;> exact List.take_subset _ _

theorem pdHeadNil (n : ℤ) : pdHead n ([] : List α) = [] := by
  unfold pdHead
  split <;> simp

theorem combos2Len (l : List α) : (combos2 l).length = l.length.choose 2 := by
  induction l with
  | nil => rfl
  | cons x xs ih =>
    simp only [combos2, List.length_append, List.length_map, ih, List.length_cons]
    rw [Nat.choose_succ_succ, Nat.choose_one_right]

theorem combos2Ne (l : List α) (h : l.Nodup) (a b : α) (hm : (a, b) ∈ combos2 l) :
    a ≠ b := by
  induction l with
  | nil => simp [combos2] at hm
  | cons x xs ih =>
    rw [List.nodup_cons] at h
    simp only [combos2, List.mem_append, List.mem_map] at hm
    rcases hm with ⟨y, hy, heq⟩ | hm
    · cases heq
      intro hab
      exact h.1 (by rw [hab]; exact hy)
    · exact ih h.2 hm

theorem collabGroupsNames (pairs : List (ℕ × String)) (g : ℕ × List String)
    (hg : g ∈ collabGroups pairs) :
    g.2 = (pairs.filter (fun p => decide (p.1 = g.1))).map (fun p => p.2) := by
  simp only [collabGroups, List.mem_map] at hg
  rcases hg with ⟨pid, _, rfl⟩
  rfl

/-- Every group produced by the grouping/filter/truncation stage carries a
duplicate-free participant list (a consequence of `drop_duplicates` on
the (projectID, name) pairs). -/
theorem collabStageNodup (cfg : Config) (o : List OrgRow) (g : ℕ × List String)
    (hg : g ∈ collabStage cfg o) : g.2.Nodup := by
  have h1 : g ∈ collabGroups (dedupPairs o) :=
    (List.mem_filter.mp (pdHeadSubset _ _ hg)).1
  rw [collabGroupsNames _ _ h1]
  refine List.Nodup.map_on ?_ (List.Nodup.filter _ (nodupDropDup _))
  intro x hx y hy hxy
  have hx1 : x.1 = g.1 := of_decide_eq_true (List.mem_filter.mp hx).2
  have hy1 : y.1 = g.1 := of_decide_eq_true (List.mem_filter.mp hy).2
  exact Prod.ext (hx1.trans hy1.symm) hxy

theorem memAddEdgeKeys (es : List ((String × String) × ℕ)) (k : String × String) (w : ℕ)
    (kw : (String × String) × ℕ) (h : kw ∈ addEdge es k w) :
    kw.1 ∈ es.map Prod.fst ∨ kw.1 = k := by
  induction es with
  | nil =>
    rcases List.mem_singleton.mp h with rfl
    exact Or.inr rfl
  | cons hd tl ih =>
    obtain ⟨a, w0⟩ := hd
    simp only [addEdge] at h
    split at h
    · rcases List.mem_cons.mp h with rfl | h
      · exact Or.inl (by simp)
      · exact Or.inl (by simp [List.mem_map_of_mem Prod.fst h])
    · rcases List.mem_cons.mp h with rfl | h
      · exact Or.inl (by simp)
      · rcases ih h with h2 | h2
        · exact Or.inl (by simp [h2])
        · exact Or.inr h2

theorem buildGraphKeysAux (ec : List ((String × String) × ℕ)) :
    ∀ (acc : List ((String × String) × ℕ)) (kw : (String × String) × ℕ),
      kw ∈ ec.foldl (fun g p => addEdge g p.1 p.2) acc →
      kw.1 ∈ acc.map Prod.fst ∨ kw.1 ∈ ec.map Prod.fst := by
  induction ec with
  | nil => intro acc kw h; exact Or.inl (List.mem_map_of_mem Prod.fst h)
  | cons p ps ih =>
    intro acc kw h
    rcases ih (addEdge acc p.1 p.2) kw h with h2 | h2
    · rcases List.mem_map.mp h2 with ⟨kw2, hkw2, heq⟩
      rcases memAddEdgeKeys _ _ _ _ hkw2 with h3 | h3
      · exact Or.inl (heq ▸ h3)
      · exact Or.inr (by simp [← heq, h3])
    · exact Or.inr (by simp [h2])

/-- Every edge of the built graph has a key that was counted. -/
theorem buildGraphKeys (ec : List ((String × String) × ℕ))
    (kw : (String × String) × ℕ) (h : kw ∈ buildGraph ec) :
    kw.1 ∈ ec.map Prod.fst := by
  rcases buildGraphKeysAux ec [] kw h with h2 | h2
  · simp at h2
  · exact h2

theorem memBumpKeys [DecidableEq α] (k : α) (es : List (α × ℕ)) (kn : α × ℕ)
    (h : kn ∈ bumpKey k es) : kn.1 = k ∨ kn.1 ∈ es.map Prod.fst := by
  induction es with
  | nil =>
    rcases List.mem_singleton.mp h with rfl
    exact Or.inl rfl
  | cons hd tl ih =>
    obtain ⟨a, n⟩ := hd
    simp only [bumpKey] at h
    split at h
    · rcases List.mem_cons.mp h with rfl | h
      · exact Or.inr (by simp)
      · exact Or.inr (by simp [List.mem_map_of_mem Prod.fst h])
    · rcases List.mem_cons.mp h with rfl | h
      · exact Or.inr (by simp)
      · rcases ih h with h2 | h2
        · exact Or.inl h2
        · exact Or.inr (by simp [h2])

theorem counterKeysAux [DecidableEq α] (l : List α) :
    ∀ (acc : List (α × ℕ)) (kn : α × ℕ),
      kn ∈ l.foldl (fun a k => bumpKey k a) acc →
      kn.1 ∈ acc.map Prod.fst ∨ kn.1 ∈ l := by
  induction l with
  | nil => intro acc kn h; exact Or.inl (List.mem_map_of_mem Prod.fst h)
  | cons x xs ih =>
    intro acc kn h
    rcases ih (bumpKey x acc) kn h with h2 | h2
    · rcases List.mem_map.mp h2 with ⟨kn2, hkn2, heq⟩
      rcases memBumpKeys _ _ _ hkn2 with h3 | h3
      · exact Or.inr (by simp [← heq, h3])
      · exact Or.inl (heq ▸ h3)
    · exact Or.inr (by simp [h2])

/-- Every key of the counter occurred in the counted list. -/
theorem counterKeys [DecidableEq α] (l : List α) (kn : α × ℕ) (h : kn ∈ counter l) :
    kn.1 ∈ l := by
  rcases counterKeysAux l [] kn h with h2 | h2
  · simp at h2
  · exact h2

theorem edgeInstMemAux (gs : List (ℕ × List String)) :
    ∀ (acc : List (String × String)) (p : String × String),
      p ∈ gs.foldl (fun a g => a ++ combos2 g.2) acc →
      p ∈ acc ∨ ∃ g ∈ gs, p ∈ combos2 g.2 := by
  induction gs with
  | nil => intro acc p h; exact Or.inl h
  | cons g gs2 ih =>
    intro acc p h
    rcases ih (acc ++ combos2 g.2) p h with h2 | h2
    · rcases List.mem_append.mp h2 with h3 | h3
      · exact Or.inl h3
      · exact Or.inr ⟨g, by simp, h3⟩
    · rcases h2 with ⟨g2, hg2, h3⟩
      exact Or.inr ⟨g2, by simp [hg2], h3⟩

/-- Every edge instance comes from the 2-combinations of some retained
group's participant list. -/
theorem edgeInstMem (gs : List (ℕ × List String)) (p : String × String)
    (h : p ∈ edgeInstances gs) : ∃ g ∈ gs, p ∈ combos2 g.2 := by
  rcases edgeInstMemAux gs [] p h with h2 | h2
  · simp at h2
  · exact h2

/-- Inversion of the whole routine: a returned graph comes from the
filtered tables through grouping, truncation, counting and insertion. -/
theorem pipelineGraphOk (cfg : Config) (t : Tables)
    (g : List ((String × String) × ℕ)) (h : pipelineGraph cfg t = .ok g) :
    ∃ t1, applyAllFilters cfg t = .ok t1 ∧
      g = buildGraph (counter (edgeInstances (collabStage cfg t1.org))) := by
  unfold pipelineGraph at h
  cases hf : applyAllFilters cfg t with
  | error e => rw [hf] at h; cases h
  | ok t1 => rw [hf] at h; exact ⟨t1, rfl, (Except.ok.inj h).symm⟩

/-- The routine's result when the filter stage returns a table pair. -/
theorem pipelineGraphEq (cfg : Config) (t t1 : Tables)
    (h : applyAllFilters cfg t = .ok t1) :
    pipelineGraph cfg t
      = .ok (buildGraph (counter (edgeInstances (collabStage cfg t1.org)))) := by
  unfold pipelineGraph
  rw [h]


namespace Claims

/-- Claim C4 support: every non-contribution criterion returns a table
pair (it cannot raise). -/
theorem applyCritOk (c : Crit) (t : Tables) (h : ∀ q, c ≠ .contrib q) :
    ∃ t1, applyCrit c t = .ok t1 := by
  cases c with
  | contrib q => exact absurd rfl (h q)
  | field s => exact ⟨_, rfl⟩
  | orgT l => exact ⟨_, rfl⟩
  | ctry l => exact ⟨_, rfl⟩
  | disc l => exact ⟨_, rfl⟩
  | yr s => exact ⟨_, rfl⟩
  | ptype l => exact ⟨_, rfl⟩

theorem gateStepOk (b : Bool) (c : Crit) (t : Tables) (h : ∀ q, c ≠ .contrib q) :
    ∃ t1, gateStep b c t = .ok t1 := by
  unfold gateStep
  split
  · exact applyCritOk c t h
  · exact ⟨t, rfl⟩

/-- When the contribution guard is falsy the whole filter sequence
returns a table pair (no other step can raise). -/
theorem applyAllFiltersOk (cfg : Config) (t : Tables)
    (hc : truthyQ cfg.contribution = false) :
    ∃ t1, applyAllFilters cfg t = .ok t1 := by
  unfold applyAllFilters
  obtain ⟨t1, h1⟩ := gateStepOk (truthyS cfg.fieldFilter)
    (.field (cfg.fieldFilter.getD "")) t (fun q h => by cases h)
  simp only [h1, excThenOk]
  obtain ⟨t2, h2⟩ := gateStepOk (!(effOrgTypes cfg.orgTypes).isEmpty)
    (.orgT (effOrgTypes cfg.orgTypes)) t1 (fun q h => by cases h)
  simp only [h2, excThenOk]
  obtain ⟨t3, h3⟩ := gateStepOk (truthyL cfg.countries)
    (.ctry (cfg.countries.getD [])) t2 (fun q h => by cases h)
  simp only [h3, excThenOk]
  obtain ⟨t4, h4⟩ := gateStepOk (truthyL cfg.disciplines)
    (.disc (cfg.disciplines.getD [])) t3 (fun q h => by cases h)
  simp only [h4, excThenOk]
  obtain ⟨t5, h5⟩ := gateStepOk (truthyS cfg.year)
    (.yr (cfg.year.getD "")) t4 (fun q h => by cases h)
  simp only [h5, excThenOk]
  have h6 : gateStep (truthyQ cfg.contribution)
      (.contrib (cfg.contribution.getD 0)) t5 = .ok t5 := by
    simp [gateStep, hc]
  simp only [h6, excThenOk]
  obtain ⟨t7, h7⟩ := gateStepOk (truthyL cfg.projectType)
    (.ptype (cfg.projectType.getD [])) t5 (fun q h => by cases h)
  exact ⟨t7, h7⟩

/-- Claim C1 (code bug): on two retained projects that both contain the
institutions A and B, listed in opposite row orders, the output edge
{A, B} has weight 1, although 2 retained projects contain both A and B:
`Counter` counts the two orientations separately, and the second
`add_edge` overwrites the weight of the undirected edge instead of
adding to it.  The claimed law weight(A,B) = number of co-occurring
retained projects is violated. -/
theorem weightOverwriteBug :
    pipelineGraph cfgDefault tSwap = .ok [(("A", "B"), 1)] ∧
    ((collabStage cfgDefault tSwap.org).filter
      (fun g => decide ("A" ∈ g.2) && decide ("B" ∈ g.2))).length = 2 :=
  ⟨rfl, rfl⟩

/-- Claim C2: truncation happens before aggregation.  In the concrete
scenario (projects P1 = {A,B,C}, P2 = {A,B}, min_participants = 2,
max_projects = 1 keeping P1) the output is exactly (A,B)=1, (A,C)=1,
(B,C)=1 with no contribution from P2; and in general the edge-instance
list built from a truncated group list ignores every group beyond the
cap. -/
theorem truncBeforeAggregate (l extra : List (ℕ × List String)) (n : ℤ)
    (h1 : 0 ≤ n) (h2 : n.toNat ≤ l.length) :
    pipelineGraph cfgTrunc tTrunc
        = .ok [(("A", "B"), 1), (("A", "C"), 1), (("B", "C"), 1)] ∧
    edgeInstances (pdHead n (l ++ extra)) = edgeInstances (pdHead n l) := by
  refine ⟨rfl, ?_⟩
  unfold pdHead
  rw [if_pos h1, if_pos h1, List.take_append_of_le_length h2]

/-- Claim C2 witness: the general part applied to the concrete truncation
scenario. -/
theorem truncBeforeAggregateWitness :
    (pipelineGraph cfgTrunc tTrunc
        = .ok [(("A", "B"), 1), (("A", "C"), 1), (("B", "C"), 1)]) ∧
    edgeInstances (pdHead 1 ([(1, ["A", "B", "C"])] ++ [(2, ["A", "B"])]))
        = edgeInstances (pdHead 1 [(1, ["A", "B", "C"])]) :=
  truncBeforeAggregate [(1, ["A", "B", "C"])] [(2, ["A", "B"])] 1 (by decide) (by decide)

/-- Claim C3 counterexample: with a contribution threshold set and a
contribution cell holding the unparseable string "abc", the filter
engine raises (the coercion error propagates) instead of silently
excluding the record. -/
theorem contribRaisesCounterexample :
    applyAllFilters cfgContrib tBad = .error "could not convert string to float" :=
  rfl

/-- Claim C3 (amended): when every contribution cell coerces (it is
missing, numeric, or a parseable string), the contribution filter
returns the rows whose coerced value passes the threshold, and a record
with a missing contribution is excluded without raising; a malformed
string value instead raises (see the counterexample). -/
theorem contribMissingExcluded (th : ℚ) (o : List OrgRow) (r : OrgRow)
    (h : wfOrg o = true) (hr : r.contribution = .missing) :
    contribStep th o = .ok (o.filter (fun r => floatGe (parseTot r.contribution) th)) ∧
    r ∉ o.filter (fun r => floatGe (parseTot r.contribution) th) := by
  refine ⟨contribStepWf th o h, ?_⟩
  intro hmem
  have h2 := (List.mem_filter.mp hmem).2
  rw [hr] at h2
  simp [parseTot, floatGe] at h2

/-- Claim C3 witness. -/
theorem contribMissingExcludedWitness :
    (contribStep 5 [rowMissContrib, rowNegContrib]
        = .ok ([rowMissContrib, rowNegContrib].filter
            (fun r => floatGe (parseTot r.contribution) 5))) ∧
    rowMissContrib ∉ [rowMissContrib, rowNegContrib].filter
        (fun r => floatGe (parseTot r.contribution) 5) :=
  contribMissingExcluded 5 [rowMissContrib, rowNegContrib] rowMissContrib
    (by decide) rfl

/-- Claim C4 counterexample: with min_participants = 0 and
max_projects = 0 the routine does not fail fast with a validation
error; it completes and returns an (empty) graph. -/
theorem noValidationCounterexample :
    pipelineGraph cfgNoValid tSwap = .ok [] ∧
    excOk (pipelineGraph cfgNoValid tSwap) = true :=
  ⟨rfl, rfl⟩

/-- Claim C4 (amended): no validation of min_participants or max_projects
is performed and neither parameter can itself raise: min_participants is
applied as-is to the participant-count check, and max_projects is passed
to head() (an empty selection for 0, dropping trailing projects when
negative).  For any configuration with min_participants < 2 or
max_projects ≤ 0, the call does not fail fast: it proceeds to the table
scan and completes with a graph whenever the filter stage itself cannot
raise — the contribution guard is falsy and the disciplines/year
patterns are free of regex metacharacters (so `str.contains` cannot
raise `re.error`); with max_projects = 0 the truncation keeps no
projects and the graph is empty. -/
theorem noValidationProceeds (cfg : Config) (t : Tables)
    (hbad : cfg.minParticipants < 2 ∨ cfg.maxProjects ≤ 0)
    (hc : truthyQ cfg.contribution = false)
    (hdp : (cfg.disciplines.getD []).all plainPat = true)
    (hyp : plainPat (cfg.year.getD "") = true) :
    (∃ g, pipelineGraph cfg t = .ok g) ∧
    (cfg.maxProjects = 0 → pipelineGraph cfg t = .ok []) := by
  obtain ⟨t1, h1⟩ := applyAllFiltersOk cfg t hc
  constructor
  · exact ⟨_, pipelineGraphEq cfg t t1 h1⟩
  · intro hmx
    rw [pipelineGraphEq cfg t t1 h1]
    have hcs : collabStage cfg t1.org = [] := by
      unfold collabStage
      rw [hmx]
      simp [pdHead]
    rw [hcs]
    rfl

/-- Claim C4 witness. -/
theorem noValidationProceedsWitness :
    (∃ g, pipelineGraph cfgNoValid tTrunc = .ok g) ∧
    (cfgNoValid.maxProjects = 0 → pipelineGraph cfgNoValid tTrunc = .ok []) :=
  noValidationProceeds cfgNoValid tTrunc (Or.inl (by decide)) (by decide)
    (by decide) (by decide)

/-- Claim C5: every project group retained by the grouping, participant
filter, and truncation stage carries a duplicate-free participant list
(so its length is its number of distinct institutions k), and its
2-combinations contribute exactly k·(k−1)/2 edge instances. -/
theorem edgeCountLaw (cfg : Config) (o : List OrgRow) (g : ℕ × List String)
    (hg : g ∈ collabStage cfg o) :
    g.2.Nodup ∧ (combos2 g.2).length = g.2.length * (g.2.length - 1) / 2 := by
  refine ⟨collabStageNodup cfg o g hg, ?_⟩
  rw [combos2Len, Nat.choose_two_right]

/-- Claim C5 witness: the retained project (1, [A,B,C]) of the truncation
scenario contributes 3·2/2 = 3 edge instances. -/
theorem edgeCountLawWitness :
    ((1, ["A", "B", "C"]) : ℕ × List String).2.Nodup ∧
    (combos2 ((1, ["A", "B", "C"]) : ℕ × List String).2).length
        = ((1, ["A", "B", "C"]) : ℕ × List String).2.length
          * (((1, ["A", "B", "C"]) : ℕ × List String).2.length - 1) / 2 :=
  edgeCountLaw cfgTrunc tTrunc.org (1, ["A", "B", "C"]) (by decide)

/-- Claim C6: no self-loop edge ever appears in the output graph: every
edge key of a returned graph has two distinct institution names, for
any configuration and input tables. -/
theorem noSelfLoops (cfg : Config) (t : Tables) (g : List ((String × String) × ℕ))
    (h : pipelineGraph cfg t = .ok g) (kw : (String × String) × ℕ) (hkw : kw ∈ g) :
    kw.1.1 ≠ kw.1.2 := by
  obtain ⟨t1, _, rfl⟩ := pipelineGraphOk cfg t g h
  have h1 := buildGraphKeys _ _ hkw
  rcases List.mem_map.mp h1 with ⟨kn, hkn, heq⟩
  have h2 := counterKeys _ _ hkn
  rw [heq] at h2
  obtain ⟨grp, hgrp, h3⟩ := edgeInstMem _ _ h2
  have h4 := collabStageNodup cfg t1.org grp hgrp
  exact combos2Ne _ h4 kw.1.1 kw.1.2 h3

/-- Claim C6 witness: applied to the duplicate-row scenario, whose output
edge is (A, B). -/
theorem noSelfLoopsWitness : (("A", "B"), 1).1.1 ≠ (("A", "B"), 1).1.2 :=
  noSelfLoops cfgDefault tSwap [(("A", "B"), 1)] rfl (("A", "B"), 1) (by decide)

/-- Claim C7 counterexample: applying the countries filter and then the
contribution filter succeeds (the malformed row is already gone), while
the opposite order raises, so the two orders do not yield identical
results. -/
theorem filterOrderCounterexample :
    seqCrit (.ctry ["Y"]) (.contrib 5) tBad
      ≠ seqCrit (.contrib 5) (.ctry ["Y"]) tBad := by
  decide

/-- Claim C7 (amended): filter application is commutative provided every
contribution cell of the organization table coerces without raising
(in particular whenever the contribution column is numeric); with a
malformed value, the two orders can differ in whether the coercion
raises (see the counterexample). -/
theorem filterCommWellFormed (c1 c2 : Crit) (t : Tables) (h : wfOrg t.org = true) :
    seqCrit c1 c2 t = seqCrit c2 c1 t := by
  rw [seqCritEq c1 c2 t _ (applyCritNormMk c1 t.proj t.org h),
    seqCritEq c2 c1 t _ (applyCritNormMk c2 t.proj t.org h),
    applyCritNormMk c2 (t.proj.filter (projPredOf c1))
      (t.org.filter (orgGateOf c1 t.proj)) (wfFilter _ _ h),
    applyCritNormMk c1 (t.proj.filter (projPredOf c2))
      (t.org.filter (orgGateOf c2 t.proj)) (wfFilter _ _ h),
    filterSwap (projPredOf c1) (projPredOf c2) t.proj,
    gateSwap c1 c2 t.proj t.org]

/-- Claim C7 witness. -/
theorem filterCommWellFormedWitness :
    seqCrit (.ctry ["Y"]) (.contrib 5) tWf = seqCrit (.contrib 5) (.ctry ["Y"]) tWf :=
  filterCommWellFormed (.ctry ["Y"]) (.contrib 5) tWf (by decide)

/-- Claim C8 counterexample: a record with a missing discipline is
retained by the disciplines filter value "nan", and a record with a
missing start date is retained by the year value "nan" (astype(str)
coerces NaN to the string "nan"), refuting exclusion for every filter
value. -/
theorem missingCoercedNanCounterexample :
    applyAllFilters cfgDiscNan tMiss = .ok tMiss ∧
    applyAllFilters cfgYearNan tMiss = .ok tMiss :=
  ⟨rfl, rfl⟩

/-- Claim C8 (amended): a missing discipline or start date is coerced to
the string "nan", against which `str.contains` then matches the filter
value as a regular expression — so exclusion does not hold for every
value: values matching "nan" retain the record (literal substrings such
as "nan", "na", "a", see the counterexample, but also metacharacter
patterns such as "n.n" or "a|b"), and an invalid pattern raises.  For a
filter value free of regex metacharacters, where the regex match is
exactly literal substring containment, the record is excluded precisely
when the value is not a substring of "nan"; this theorem states the
exclusion half. -/
theorem missingExcludedUnlessNanSub (ds : List String) (d y : String)
    (t t1 t2 : Tables) (r : OrgRow)
    (hpd : plainPat d = true) (hpy : plainPat y = true)
    (hd : d ∈ ds) (hnd : strContains "nan" d = false) (hrd : r.discipline = .missing)
    (h1 : applyCrit (.disc ds) t = .ok t1)
    (hny : strContains "nan" y = false) (hry : r.startDate = .missing)
    (h2 : applyCrit (.yr y) t = .ok t2) :
    r ∉ t1.org ∧ r ∉ t2.org := by
  constructor
  · have e1 : applyCrit (.disc ds) t
        = .ok ⟨t.proj, t.org.filter
            (fun rr => ds.all (fun dd => strContains (astypeStr rr.discipline) dd))⟩ := by
      simp only [applyCrit, discFold]
    rw [e1] at h1
    obtain rfl := Except.ok.inj h1
    intro hmem
    have hall := (List.mem_filter.mp hmem).2
    rw [List.all_eq_true] at hall
    have hcd := hall d hd
    rw [hrd] at hcd
    simp only [astypeStr] at hcd
    rw [hnd] at hcd
    cases hcd
  · have e2 : applyCrit (.yr y) t
        = .ok ⟨t.proj, t.org.filter (fun rr => strContains (astypeStr rr.startDate) y)⟩ :=
      rfl
    rw [e2] at h2
    obtain rfl := Except.ok.inj h2
    intro hmem
    have hcy := (List.mem_filter.mp hmem).2
    rw [hry] at hcy
    simp only [astypeStr] at hcy
    rw [hny] at hcy
    cases hcy

/-- Claim C8 witness. -/
theorem missingExcludedUnlessNanSubWitness :
    rowMissDisc ∉ (⟨([] : List ProjRow), ([] : List OrgRow)⟩ : Tables).org ∧
    rowMissDisc ∉ (⟨([] : List ProjRow), ([] : List OrgRow)⟩ : Tables).org :=
  missingExcludedUnlessNanSub ["x"] "x" "2021" tMiss ⟨[], []⟩ ⟨[], []⟩ rowMissDisc
    (by decide) (by decide) (by decide) (by decide) rfl rfl (by decide) rfl rfl

/-- Claim C9: a filter configuration matching zero organization records
produces an empty edge set and an empty node set, and the routine
completes without raising. -/
theorem emptyFilterEmptyGraph (cfg : Config) (t : Tables) (t1 : Tables)
    (hf : applyAllFilters cfg t = .ok t1) (ho : t1.org = []) :
    pipelineGraph cfg t = .ok [] ∧ graphNodes [] = [] := by
  refine ⟨?_, rfl⟩
  rw [pipelineGraphEq cfg t t1 hf, ho]
  have hcs : collabStage cfg ([] : List OrgRow) = [] := by
    simp [collabStage, dedupPairs, dropDup, dropDupAux, collabGroups, sortNat, pdHeadNil]
  rw [hcs]
  rfl

/-- Claim C9 witness: the country filter ZZ matches no record of the
single-row table. -/
theorem emptyFilterEmptyGraphWitness :
    pipelineGraph cfgNoMatch tBE = .ok [] ∧ graphNodes [] = [] :=
  emptyFilterEmptyGraph cfgNoMatch tBE ⟨[bareProj 1], []⟩ rfl rfl

/-- Claim C10: present-but-falsy filter arguments disable their filters
entirely: with org_types = [], countries = [], disciplines = [],
year = "", contribution = 0 and project_type = [] the filter sequence
is the identity on any table pair; the default org_types = None applies
the five-type restriction and excludes an "OTH" row that org_types = []
retains; and contribution = 0 skips the contribution filter, retaining
rows with missing, negative, and even malformed contribution cells. -/
theorem falsyDisablesFilters :
    (∀ t : Tables, applyAllFilters allFalsyCfg t = .ok t) ∧
    applyAllFilters cfgDefault tOTH = .ok ⟨[], []⟩ ∧
    applyAllFilters cfgOrgEmpty tOTH = .ok tOTH ∧
    applyAllFilters cfgContribZero tContrib = .ok tContrib :=
  ⟨fun _ => rfl, rfl, rfl, rfl⟩

end Claims

end CordisNet
